import Mathlib

/-
Verification development for the crypto_price_app repository.

The Python sources (api.py, data_processing.py, utils.py) are shallowly
embedded below:
  * JSON numbers are modelled as rationals (ℚ); IEEE special values that
    numpy arithmetic can produce (inf, -inf, nan) are modelled by the
    FVal type.
  * Python dicts whose insertion order matters are modelled as
    association lists with an insert-or-overwrite operation that keeps
    the position of an overwritten key (CPython dict semantics).
  * The module-level mutable state of api.py (the response cache and the
    memoized symbol map) is modelled by explicit state passing; the
    network is an oracle argument describing the outcome the requests
    library would deliver for the single outgoing call of each branch.
  * Fallible pandas operations are modelled with Except: an empty list
    of records gives a pandas DataFrame with no columns, on which column
    access (prepare_listings_data) and sort_values
    (prepare_historical_data) raise KeyError; list(d.keys())[0] on an
    empty dict raises IndexError.
-/

set_option maxHeartbeats 1000000

/-- Python exceptions that the embedded code can raise. -/
inductive PyErr where
  | keyError (key : String)
  | indexError
deriving DecidableEq, Repr

/-- A numpy float64 scalar: a finite rational or one of the IEEE special
values.  numpy division by zero does not raise; it yields nan or ±inf
(with only a RuntimeWarning side effect). -/
inductive FVal where
  | fin (q : ℚ)
  | pinf
  | ninf
  | nan
deriving DecidableEq, Repr

/-- IEEE-style addition on FVal (sign of zero is not tracked). -/
def FVal.add : FVal → FVal → FVal
  | nan, _ => nan
  | _, nan => nan
  | fin a, fin b => fin (a + b)
  | pinf, ninf => nan
  | ninf, pinf => nan
  | pinf, _ => pinf
  | ninf, _ => ninf
  | fin _, pinf => pinf
  | fin _, ninf => ninf

/-- IEEE-style multiplication on FVal. -/
def FVal.mul : FVal → FVal → FVal
  | nan, _ => nan
  | _, nan => nan
  | fin a, fin b => fin (a * b)
  | fin a, pinf => if a = 0 then nan else if 0 < a then pinf else ninf
  | fin a, ninf => if a = 0 then nan else if 0 < a then ninf else pinf
  | pinf, fin b => if b = 0 then nan else if 0 < b then pinf else ninf
  | ninf, fin b => if b = 0 then nan else if 0 < b then ninf else pinf
  | pinf, pinf => pinf
  | ninf, ninf => pinf
  | pinf, ninf => ninf
  | ninf, pinf => ninf

/-- IEEE-style division on FVal: 0/0 is nan, c/0 for c ≠ 0 is a signed
infinity (the unsigned-zero convention treats the zero divisor as +0). -/
def FVal.div : FVal → FVal → FVal
  | nan, _ => nan
  | _, nan => nan
  | fin a, fin b =>
      if b = 0 then (if a = 0 then nan else if 0 < a then pinf else ninf)
      else fin (a / b)
  | fin _, pinf => fin 0
  | fin _, ninf => fin 0
  | pinf, fin b => if 0 ≤ b then pinf else ninf
  | ninf, fin b => if 0 ≤ b then ninf else pinf
  | pinf, _ => nan
  | ninf, _ => nan

/-- Python str.upper() for the ASCII strings this code handles. -/
def pyUpper (s : String) : String := ⟨s.data.map Char.toUpper⟩

/-- CPython dict assignment d[k] = v on an insertion-ordered dict: an
existing key keeps its position and gets the new value, a fresh key is
appended. -/
def dictInsert {κ ν : Type} [BEq κ] (k : κ) (v : ν) (d : List (κ × ν)) : List (κ × ν) :=
  if d.any (fun p => p.1 == k) then d.map (fun p => if p.1 == k then (k, v) else p)
  else d ++ [(k, v)]

/-- The per-coin USD quote block of the normalized listings payload
built by fetch_latest_listings (api.py lines 82-93).  The
percent_change_30d field is doubly optional: the outer layer models
presence of the dict key (always set by api.py, but
prepare_listings_data guards its absence with .get), the inner layer
the null value. -/
structure USDQuote where
  price : Option ℚ
  market_cap : Option ℚ
  volume_24h : Option ℚ
  percent_change_1h : Option ℚ
  percent_change_24h : Option ℚ
  percent_change_7d : Option ℚ
  percent_change_30d : Option (Option ℚ)
  last_updated : Option String
deriving DecidableEq, Repr

/-- One record of the normalized listings payload (api.py lines 75-94). -/
structure NormCoin where
  id : Option String
  name : Option String
  symbol : Option String
  slug : Option String
  cmc_rank : Option Int
  image : Option String
  quote : USDQuote
deriving DecidableEq, Repr

/-- The normalized listings payload: the dict {'data': [...]} returned
by fetch_latest_listings (api.py line 96). -/
structure ListingsPayload where
  data : List NormCoin
deriving DecidableEq, Repr

/-- One raw CoinGecko /coins/markets record, restricted to the fields
fetch_latest_listings reads; every field can be absent or null, which
coin.get collapses to None. -/
structure RawCoin where
  id : Option String
  name : Option String
  symbol : Option String
  image : Option String
  market_cap_rank : Option Int
  current_price : Option ℚ
  market_cap : Option ℚ
  total_volume : Option ℚ
  price_change_percentage_1h_in_currency : Option ℚ
  price_change_percentage_24h_in_currency : Option ℚ
  price_change_percentage_7d_in_currency : Option ℚ
  price_change_percentage_30d_in_currency : Option ℚ
  last_updated : Option String
deriving DecidableEq, Repr

/-- The per-coin re-keying loop body of fetch_latest_listings
(api.py lines 75-94).  coin.get('symbol').upper() runs only when the
symbol is truthy (neither absent nor the empty string). -/
def normalizeCoin (c : RawCoin) : NormCoin :=
  { id := c.id
    name := c.name
    symbol := match c.symbol with
      | some s => if s = "" then none else some (pyUpper s)
      | none => none
    slug := c.id
    cmc_rank := c.market_cap_rank
    image := c.image
    quote :=
      { price := c.current_price
        market_cap := c.market_cap
        volume_24h := c.total_volume
        percent_change_1h := c.price_change_percentage_1h_in_currency
        percent_change_24h := c.price_change_percentage_24h_in_currency
        percent_change_7d := c.price_change_percentage_7d_in_currency
        percent_change_30d := some c.price_change_percentage_30d_in_currency
        last_updated := c.last_updated } }

/-- One row of the DataFrame built by prepare_listings_data
(data_processing.py lines 18-32).  The pd.to_datetime conversion of
last_updated is kept as the string it parses (the parse is presentation
only and order-irrelevant here). -/
structure CryptoRow where
  id : Option String
  name : Option String
  symbol : Option String
  slug : Option String
  cmc_rank : Option Int
  price : Option ℚ
  market_cap : Option ℚ
  volume_24h : Option ℚ
  percent_change_1h : Option ℚ
  percent_change_24h : Option ℚ
  percent_change_7d : Option ℚ
  percent_change_30d : Option ℚ
  last_updated : Option String
deriving DecidableEq, Repr

/-- The dict appended for one coin by prepare_listings_data
(data_processing.py lines 18-32).  coin['quote']['USD'].get(
'percent_change_30d', 0) yields 0 only when the key is absent;
a present null value stays null. -/
def extractRow (coin : NormCoin) : CryptoRow :=
  { id := coin.id
    name := coin.name
    symbol := coin.symbol
    slug := coin.slug
    cmc_rank := coin.cmc_rank
    price := coin.quote.price
    market_cap := coin.quote.market_cap
    volume_24h := coin.quote.volume_24h
    percent_change_1h := coin.quote.percent_change_1h
    percent_change_24h := coin.quote.percent_change_24h
    percent_change_7d := coin.quote.percent_change_7d
    percent_change_30d := coin.quote.percent_change_30d.getD (some 0)
    last_updated := coin.quote.last_updated }

/-- df.sort_values('market_cap', ascending=False) with the pandas
defaults: non-null keys are sorted descending and NaN (null) keys are
placed after all of them (na_position='last').  The default
kind='quicksort' leaves the relative order of equal keys unspecified
(pandas documents only mergesort/stable as stable), so the program
guarantees nothing about tie order; this model has to commit to some
admissible tie order to stay an executable function and uses a stable
sort for that, but no theorem below states or relies on the tie order
of equal keys — only the key ordering, the null placement and the
multiset of rows, which every admissible kind produces. -/
def sortValuesByCapDesc (rows : List CryptoRow) : List CryptoRow :=
  (rows.filter (fun r => r.market_cap.isSome)).mergeSort
      (fun a b => decide (b.market_cap.getD 0 ≤ a.market_cap.getD 0))
    ++ rows.filter (fun r => r.market_cap.isNone)

/-- prepare_listings_data (data_processing.py lines 5-42).  On an empty
payload pd.DataFrame([]) has no columns, so reading df['last_updated']
raises KeyError before the sort is reached. -/
def prepare_listings_data (api_data : ListingsPayload) : Except PyErr (List CryptoRow) :=
  let rows := api_data.data.map extractRow
  if rows.isEmpty then .error (.keyError "last_updated")
  else .ok (sortValuesByCapDesc rows)

/-- The timeframe column name passed to get_top_gainers_losers; the
callers only select one of the four percent-change columns. -/
inductive Timeframe where
  | pc1h
  | pc24h
  | pc7d
  | pc30d
deriving DecidableEq, Repr

/-- Column selection df[timeframe]. -/
def colVal : Timeframe → CryptoRow → Option ℚ
  | .pc1h, r => r.percent_change_1h
  | .pc24h, r => r.percent_change_24h
  | .pc7d, r => r.percent_change_7d
  | .pc30d, r => r.percent_change_30d

/-- One row of the four-column frames returned by
get_top_gainers_losers: the ['name', 'symbol', timeframe, 'price']
projection. -/
structure MoverRow where
  name : Option String
  symbol : Option String
  change : Option ℚ
  price : Option ℚ
deriving DecidableEq, Repr

/-- The column projection applied to gainers and losers
(data_processing.py lines 95 and 98). -/
def projMover (tf : Timeframe) (r : CryptoRow) : MoverRow :=
  ⟨r.name, r.symbol, colVal tf r, r.price⟩

/-- get_top_gainers_losers (data_processing.py lines 76-100).
df.nlargest(n, col) with keep='first' is the first n rows of a stable
descending sort on col, nsmallest the first n of a stable ascending
sort; both drop nothing here because valid_df was already filtered with
notna(). -/
def get_top_gainers_losers (df : List CryptoRow) (n : Nat := 5)
    (timeframe : Timeframe := .pc24h) : List MoverRow × List MoverRow :=
  let valid := df.filter (fun r => (colVal timeframe r).isSome)
  let n := if valid.length < 2 * n then valid.length / 2 else n
  let gainers := ((valid.mergeSort (fun a b =>
      decide ((colVal timeframe b).getD 0 ≤ (colVal timeframe a).getD 0))).take n).map
      (projMover timeframe)
  let losers := ((valid.mergeSort (fun a b =>
      decide ((colVal timeframe a).getD 0 ≤ (colVal timeframe b).getD 0))).take n).map
      (projMover timeframe)
  (gainers, losers)

/-- pandas Series.sum over a nullable column: null entries are skipped
(skipna=True default), the empty sum is 0. -/
def seriesSum (caps : List (Option ℚ)) : ℚ := (caps.filterMap id).sum

/-- df['market_cap'].sum() (data_processing.py line 112). -/
def total_market_cap (df : List CryptoRow) : ℚ := seriesSum (df.map (·.market_cap))

/-- df[df['symbol'] == 'BTC']['market_cap'].sum() (line 115). -/
def btc_market_cap (df : List CryptoRow) : ℚ :=
  seriesSum ((df.filter (fun r => r.symbol = some "BTC")).map (·.market_cap))

/-- df[df['symbol'] == 'ETH']['market_cap'].sum() (line 118). -/
def eth_market_cap (df : List CryptoRow) : ℚ :=
  seriesSum ((df.filter (fun r => r.symbol = some "ETH")).map (·.market_cap))

/-- The dict returned by calculate_market_share. -/
structure MarketShare where
  Bitcoin : FVal
  Ethereum : FVal
  Altcoins : FVal
deriving DecidableEq, Repr

/-- calculate_market_share (data_processing.py lines 102-128): the
three category sums are numpy scalars, so each percentage is a numpy
division that never raises. -/
def calculate_market_share (df : List CryptoRow) : MarketShare :=
  let total := total_market_cap df
  let btc := btc_market_cap df
  let eth := eth_market_cap df
  let altcoins := total - btc - eth
  { Bitcoin := ((FVal.fin btc).div (FVal.fin total)).mul (FVal.fin 100)
    Ethereum := ((FVal.fin eth).div (FVal.fin total)).mul (FVal.fin 100)
    Altcoins := ((FVal.fin altcoins).div (FVal.fin total)).mul (FVal.fin 100) }

/-- The USD block of one entry of the quotes dict built by
fetch_historical_data (api.py lines 173-180).  The human-readable
'timestamp' string it also stores is ignored by prepare_historical_data
and omitted. -/
structure HistUSD where
  price : ℚ
  volume_24h : Option ℚ
  market_cap : Option ℚ
deriving DecidableEq, Repr

/-- The per-symbol section {'quotes': {...}} of the normalized history
payload; the quotes dict is keyed by the epoch-second timestamp. -/
structure SymbolQuotes where
  quotes : List (Nat × HistUSD)
deriving DecidableEq, Repr

/-- The status block of the normalized history payload (api.py lines
188-193); the utcnow timestamp string is presentation only and
omitted. -/
structure HistStatus where
  error_code : Int
  error_message : Option String
  credit_count : Int
deriving DecidableEq, Repr

/-- The normalized history payload {'data': {symbol: {...}}, 'status':
{...}}; data = none models a dict without the 'data' key. -/
structure HistPayload where
  data : Option (List (String × SymbolQuotes))
  status : HistStatus
deriving DecidableEq, Repr

/-- The transform loop of fetch_historical_data (api.py lines 161-180):
for each index into prices, insert under key int(timestamp_ms / 1000) a
USD block zipping in volumes[i] and market_caps[i] when those series
are long enough, else None. -/
def buildQuotes (prices volumes market_caps : List (Nat × ℚ)) : List (Nat × HistUSD) :=
  (List.range prices.length).foldl
    (fun quotes i =>
      dictInsert ((prices.getD i (0, 0)).1 / 1000)
        { price := (prices.getD i (0, 0)).2
          volume_24h := (volumes[i]?).map (·.2)
          market_cap := (market_caps[i]?).map (·.2) }
        quotes)
    []

/-- The result dict assembled by fetch_historical_data on a 200
response (api.py lines 182-194). -/
def buildHistResult (symbol : String) (prices volumes market_caps : List (Nat × ℚ)) :
    HistPayload :=
  { data := some [(symbol, ⟨buildQuotes prices volumes market_caps⟩)]
    status := { error_code := 0, error_message := none, credit_count := 0 } }

/-- One row of the DataFrame built by prepare_historical_data; the
timestamp is the epoch-second key (datetime.fromtimestamp is a
strictly monotone renaming and is kept as the raw second count). -/
structure HistSample where
  timestamp : Nat
  price : ℚ
  volume_24h : Option ℚ
  market_cap : Option ℚ
deriving DecidableEq, Repr

/-- prepare_historical_data (data_processing.py lines 44-74).
The early return covers a falsy api_data (None or an empty dict) and a
dict without the 'data' key.  list(api_data['data'].keys())[0] raises
IndexError when the data dict is empty; an empty quotes dict gives
pd.DataFrame([]) with no columns, so sort_values('timestamp') raises
KeyError. -/
def prepare_historical_data (api_data : Option HistPayload) : Except PyErr (List HistSample) :=
  match api_data with
  | none => .ok []
  | some payload =>
    match payload.data with
    | none => .ok []
    | some data =>
      match data with
      | [] => .error .indexError
      | (_, symdata) :: _ =>
        let rows := symdata.quotes.map
          (fun p => HistSample.mk p.1 p.2.price p.2.volume_24h p.2.market_cap)
        if rows.isEmpty then .error (.keyError "timestamp")
        else .ok (rows.mergeSort (fun a b => decide (a.timestamp ≤ b.timestamp)))

/-- The index-by-index zip of the three provider series, reading the
claim and the transform loop directly: sample i carries prices[i] and
the i-th volume and market cap when present, null otherwise. -/
def zipSamples (prices volumes market_caps : List (Nat × ℚ)) : List HistSample :=
  (List.range prices.length).map
    (fun i =>
      { timestamp := (prices.getD i (0, 0)).1 / 1000
        price := (prices.getD i (0, 0)).2
        volume_24h := (volumes[i]?).map (·.2)
        market_cap := (market_caps[i]?).map (·.2) })

/-- The record stored per key in _cache['historical_data']
(api.py line 195). -/
structure CacheRecord where
  data : HistPayload
  timestamp : ℚ
deriving DecidableEq, Repr

/-- The module-level mutable state of api.py: the memoized symbol map
(line 11) and the two-part response cache (lines 14-17). -/
structure ApiState where
  coin_symbol_to_id_map : Option (List (String × String))
  listings_cache_data : Option ListingsPayload
  listings_cache_timestamp : Option ℚ
  historical_cache : List (String × CacheRecord)
deriving DecidableEq, Repr

/-- The state at process start (api.py lines 11-17). -/
def startApiState : ApiState := ⟨none, none, none, []⟩

/-- CACHE_EXPIRATION_SECONDS (api.py line 19). -/
def CACHE_EXPIRATION_SECONDS : ℚ := 60

/-- Outcome of the requests.get call for GET /coins/list: a 200
response parsed into (symbol, id) pairs, a non-200 status, or a raised
exception. -/
inductive CoinListResponse where
  | success (coins : List (String × String))
  | failure (status_code : Int)
  | exc (msg : String)
deriving DecidableEq, Repr

/-- The dict comprehension {coin['symbol'].upper(): coin['id'] for coin
in coins} (api.py line 29): a later coin with the same uppercased
symbol overwrites the earlier value. -/
def buildSymbolMap (coins : List (String × String)) : List (String × String) :=
  coins.foldl (fun m c => dictInsert (pyUpper c.1) c.2 m) []

/-- Result of one call to get_coin_symbol_to_id_map: the returned map,
the state after the call, whether a /coins/list request was issued, and
the st.error messages emitted. -/
structure MapFetchOut where
  map : List (String × String)
  state : ApiState
  networkCalled : Bool
  messages : List String
deriving DecidableEq, Repr

/-- get_coin_symbol_to_id_map (api.py lines 21-36): fetch only when the
global is None; a non-200 status or an exception stores {} in the
global, so any first attempt — successful or not — fixes the map for
the life of the process. -/
def get_coin_symbol_to_id_map (s : ApiState) (resp : CoinListResponse) : MapFetchOut :=
  match s.coin_symbol_to_id_map with
  | some m => ⟨m, s, false, []⟩
  | none =>
    match resp with
    | .success coins =>
      let m := buildSymbolMap coins
      ⟨m, { s with coin_symbol_to_id_map := some m }, true, []⟩
    | .failure code =>
      ⟨[], { s with coin_symbol_to_id_map := some [] }, true,
        ["Failed to fetch coin list with status code: " ++ toString code]⟩
    | .exc msg =>
      ⟨[], { s with coin_symbol_to_id_map := some [] }, true,
        ["Error fetching coin list: " ++ msg]⟩

/-- Outcome of the requests.get call for GET /coins/markets. -/
inductive ListingsResponse where
  | success (coins : List RawCoin)
  | failure (status_code : Int) (text : String)
  | exc (msg : String)
deriving DecidableEq, Repr

/-- Result of one call to fetch_latest_listings: the returned payload
(None on failure), the state after the call, whether a network request
was issued and with which query parameters, and the st.error messages
emitted. -/
structure ListingsFetchOut where
  result : Option ListingsPayload
  state : ApiState
  networkCalled : Bool
  requestParams : Option (List (String × String))
  messages : List String
deriving DecidableEq, Repr

/-- The network branch of fetch_latest_listings (api.py lines 56-110):
build the query parameters, issue the request, normalize and cache on
200, report and return None otherwise; a failed call leaves the cache
untouched. -/
def fetchListingsNetwork (s : ApiState) (now : ℚ) (vs_currency : String)
    (per_page page : Int) (resp : ListingsResponse) : ListingsFetchOut :=
  let parameters := [("vs_currency", vs_currency), ("order", "market_cap_desc"),
    ("per_page", toString per_page), ("page", toString page), ("sparkline", "false"),
    ("price_change_percentage", "1h,24h,7d,30d")]
  match resp with
  | .success coins =>
    let result : ListingsPayload := ⟨coins.map normalizeCoin⟩
    ⟨some result,
      { s with listings_cache_data := some result, listings_cache_timestamp := some now },
      true, some parameters, []⟩
  | .failure code text =>
    ⟨none, s, true, some parameters,
      ["API request failed with status code: " ++ toString code, "Error message: " ++ text]⟩
  | .exc msg =>
    ⟨none, s, true, some parameters, ["Request error: " ++ msg]⟩

/-- fetch_latest_listings (api.py lines 38-110): one shared cache slot
_cache['latest_listings'] is consulted first; inside the expiration
window the cached payload is returned with no request, whatever the
arguments of the call are. -/
def fetch_latest_listings (s : ApiState) (now : ℚ) (vs_currency : String := "usd")
    (per_page : Int := 100) (page : Int := 1) (resp : ListingsResponse) : ListingsFetchOut :=
  match s.listings_cache_data, s.listings_cache_timestamp with
  | some d, some t =>
    if now - t < CACHE_EXPIRATION_SECONDS then ⟨some d, s, false, none, []⟩
    else fetchListingsNetwork s now vs_currency per_page page resp
  | _, _ => fetchListingsNetwork s now vs_currency per_page page resp

/-- Outcome of the requests.get call for GET /coins/{id}/market_chart:
a 200 response parsed into the prices, total_volumes and market_caps
arrays of (epoch-ms, value) pairs, a non-200 status, or a raised
exception. -/
inductive HistResponse where
  | success (prices volumes market_caps : List (Nat × ℚ))
  | failure (status_code : Int) (text : String)
  | exc (msg : String)
deriving DecidableEq, Repr

/-- Result of one call to fetch_historical_data: the returned payload,
the state after the call, whether the /coins/list and the market_chart
requests were issued, whether the result was served from the cache, and
the st.warning and st.error messages emitted. -/
structure HistFetchOut where
  result : Option HistPayload
  state : ApiState
  coinListCalled : Bool
  histNetworkCalled : Bool
  servedFromCache : Bool
  messages : List String
deriving DecidableEq, Repr

/-- The history cache key f"{symbol}_{days}" (api.py line 134). -/
def histCacheKey (symbol : String) (days : Int) : String :=
  symbol ++ "_" ++ toString days

/-- The days clamp (api.py lines 130-132). -/
def clampDays (days : Int) : Int := if days > 365 then 365 else days

/-- The part of fetch_historical_data after the cache miss (api.py
lines 141-207): resolve the symbol through the memoized map, fail with
'Coin ID not found' on a falsy id without touching the market_chart
endpoint, otherwise issue the request, normalize and cache on 200. -/
def fetchHistResolve (s : ApiState) (now : ℚ) (symbol : String) (days : Int)
    (cache_key : String) (warnMsgs : List String) (coinListResp : CoinListResponse)
    (histResp : HistResponse) : HistFetchOut :=
  let mo := get_coin_symbol_to_id_map s coinListResp
  match mo.map.lookup symbol with
  | none =>
    ⟨none, mo.state, mo.networkCalled, false, false,
      warnMsgs ++ mo.messages ++ ["Coin ID not found for symbol: " ++ symbol]⟩
  | some coin_id =>
    if coin_id = "" then
      ⟨none, mo.state, mo.networkCalled, false, false,
        warnMsgs ++ mo.messages ++ ["Coin ID not found for symbol: " ++ symbol]⟩
    else
      match histResp with
      | .success prices volumes market_caps =>
        let result := buildHistResult symbol prices volumes market_caps
        let newCache := dictInsert cache_key ⟨result, now⟩ mo.state.historical_cache
        ⟨some result, { mo.state with historical_cache := newCache },
          mo.networkCalled, true, false, warnMsgs ++ mo.messages⟩
      | .failure code text =>
        ⟨none, mo.state, mo.networkCalled, true, false,
          warnMsgs ++ mo.messages ++
            ["Historical data API request failed with status code: " ++ toString code,
             "Error message: " ++ text]⟩
      | .exc msg =>
        ⟨none, mo.state, mo.networkCalled, true, false,
          warnMsgs ++ mo.messages ++ ["Request error: " ++ msg]⟩

/-- fetch_historical_data (api.py lines 112-207): uppercase the symbol,
clamp days above 365 with a warning, and consult the per-(symbol, days)
cache dict before resolving and fetching.  The int(days) coercion is
modelled by typing days as an integer. -/
def fetch_historical_data (s : ApiState) (now : ℚ) (symbol : String) (days : Int := 30)
    (coinListResp : CoinListResponse) (histResp : HistResponse) : HistFetchOut :=
  let symbol := pyUpper symbol
  let warnMsgs := if days > 365 then
      ["Public API users are limited to querying historical data within the past 365 days. Limiting to 365 days."]
    else []
  let days := clampDays days
  let cache_key := histCacheKey symbol days
  match s.historical_cache.lookup cache_key with
  | some entry =>
    if now - entry.timestamp < CACHE_EXPIRATION_SECONDS then
      ⟨some entry.data, s, false, false, true, warnMsgs⟩
    else fetchHistResolve s now symbol days cache_key warnMsgs coinListResp histResp
  | none => fetchHistResolve s now symbol days cache_key warnMsgs coinListResp histResp

/-- The suffix table of format_large_number (utils.py line 22). -/
def numberSuffixes : List String := ["", "K", "M", "B", "T"]

/-- The scaling loop of format_large_number (utils.py lines 25-27):
while abs(num) >= 1000 and magnitude < len(suffixes) - 1, divide num by
1000 and bump magnitude. -/
def fmtMagLoop (num : ℚ) (magnitude : Nat) : ℚ × Nat :=
  if h : 1000 ≤ |num| ∧ magnitude < 4 then fmtMagLoop (num / 1000) (magnitude + 1)
  else (num, magnitude)
termination_by 4 - magnitude
decreasing_by omega

/-- Round to the nearest integer, ties to even: the rounding used by
Python fixed-point float formatting. -/
def roundHalfEven (q : ℚ) : Int :=
  let f := ⌊q⌋
  if q - f < 1 / 2 then f
  else if q - f > 1 / 2 then f + 1
  else if f % 2 = 0 then f else f + 1

/-- Left-pad a digit string with zeros to the given width. -/
def padZeros (s : String) (width : Nat) : String :=
  ⟨List.replicate (width - s.length) '0'⟩ ++ s

/-- Python f"{num:.Pf}" fixed-point rendering over exact rationals. -/
def renderFixed (q : ℚ) (p : Nat) : String :=
  let n : Int := roundHalfEven (|q| * (10 : ℚ) ^ p)
  let sign := if q < 0 then "-" else ""
  let a := n.natAbs
  if p = 0 then sign ++ toString a
  else sign ++ toString (a / 10 ^ p) ++ "." ++ padZeros (toString (a % 10 ^ p)) p

/-- format_large_number (utils.py lines 5-29): "N/A" for None, the bare
string "0" for zero, otherwise a dollar-prefixed fixed-point rendering
of the number scaled into the magnitude the loop selects, followed by
the magnitude suffix. -/
def format_large_number (num : Option ℚ) (precision : Nat := 2) : String :=
  match num with
  | none => "N/A"
  | some num =>
    if num = 0 then "0"
    else
      let sm := fmtMagLoop num 0
      "$" ++ renderFixed sm.1 precision ++ numberSuffixes.getD sm.2 ""

/-- The sort relation realized by sort_values('market_cap',
ascending=False): among non-null keys descending, null keys strictly
after every non-null key. -/
def capOrder (a b : CryptoRow) : Prop :=
  match b.market_cap with
  | none => True
  | some y =>
    match a.market_cap with
    | some x => y ≤ x
    | none => False

/-- A row with every column null, used to build concrete test rows. -/
def blankRow : CryptoRow :=
  { id := none, name := none, symbol := none, slug := none, cmc_rank := none,
    price := none, market_cap := none, volume_24h := none, percent_change_1h := none,
    percent_change_24h := none, percent_change_7d := none, percent_change_30d := none,
    last_updated := none }

/-- The market-share scenario of the specification: BTC 600, ETH 300,
XRP 100. -/
def shareScenario : List CryptoRow :=
  [{ blankRow with symbol := some "BTC", market_cap := some 600 },
   { blankRow with symbol := some "ETH", market_cap := some 300 },
   { blankRow with symbol := some "XRP", market_cap := some 100 }]

/-- A single listing whose market cap is zero. -/
def zeroCapRow : CryptoRow := { blankRow with symbol := some "XRP", market_cap := some 0 }

/-- Two listings whose market caps are zero. -/
def zeroCapScenario : List CryptoRow :=
  [{ blankRow with symbol := some "BTC", market_cap := some 0 },
   { blankRow with symbol := some "ETH", market_cap := some 0 }]

/-- A USD quote block with every field null (and the 30d key present). -/
def blankQuote : USDQuote :=
  { price := none, market_cap := none, volume_24h := none, percent_change_1h := none,
    percent_change_24h := none, percent_change_7d := none, percent_change_30d := some none,
    last_updated := none }

/-- A one-coin normalized payload used to instantiate the listings
theorems. -/
def samplePayload : ListingsPayload :=
  ⟨[{ id := some "bitcoin", name := some "Bitcoin", symbol := some "BTC",
      slug := some "bitcoin", cmc_rank := some 1, image := none,
      quote := { blankQuote with market_cap := some 100, price := some 5 } }]⟩

/-- Four rows with 24h percent changes, used to instantiate the movers
theorem. -/
def moversScenario : List CryptoRow :=
  [{ blankRow with symbol := some "A", percent_change_24h := some 5 },
   { blankRow with symbol := some "B", percent_change_24h := some (-3) },
   { blankRow with symbol := some "C", percent_change_24h := some 4 },
   { blankRow with symbol := some "D" }]

/-- A raw provider coin used for the first concrete listings fetch. -/
def rawCoinA : RawCoin :=
  { id := some "bitcoin", name := some "Bitcoin", symbol := some "btc", image := none,
    market_cap_rank := some 1, current_price := some 50000, market_cap := some 900,
    total_volume := some 800, price_change_percentage_1h_in_currency := none,
    price_change_percentage_24h_in_currency := some 2,
    price_change_percentage_7d_in_currency := none,
    price_change_percentage_30d_in_currency := none, last_updated := some "t1" }

/-- A raw provider coin used for the second concrete listings fetch. -/
def rawCoinB : RawCoin :=
  { id := some "ethereum", name := some "Ethereum", symbol := some "eth", image := none,
    market_cap_rank := some 2, current_price := some 3000, market_cap := some 400,
    total_volume := some 300, price_change_percentage_1h_in_currency := none,
    price_change_percentage_24h_in_currency := some (-1),
    price_change_percentage_7d_in_currency := none,
    price_change_percentage_30d_in_currency := none, last_updated := some "t2" }

/-- A state whose symbol index is already built and maps only BTC. -/
def builtIndexState : ApiState := ⟨some [("BTC", "bitcoin")], none, none, []⟩

theorem filter_mergeSort_eq_filter {α : Type} (le : α → α → Bool) (p : α → Bool)
    (l : List α)
    (htrans : ∀ a b c, le a b = true → le b c = true → le a c = true)
    (htot : ∀ a b, (le a b || le b a) = true)
    (hp : ∀ a b, p a = true → p b = true → le a b = true) :
    (l.mergeSort le).filter p = l.filter p := by
  have hsubl : (l.filter p).Sublist l := List.filter_sublist l
  have hpw : (l.filter p).Pairwise (fun a b => le a b = true) :=
    List.pairwise_of_forall_mem_list (fun a ha b hb =>
      hp a b (List.of_mem_filter ha) (List.of_mem_filter hb))
  have hsub2 : (l.filter p).Sublist (l.mergeSort le) :=
    List.sublist_mergeSort htrans htot hpw hsubl
  have hself : List.filter p (List.filter p l) = List.filter p l := by
    rw [List.filter_filter]
    exact List.filter_congr (fun x _ => Bool.and_self (p x))
  have hsub3 : (l.filter p).Sublist ((l.mergeSort le).filter p) := by
    have h := hsub2.filter p
    rwa [hself] at h
  have hlen : ((l.mergeSort le).filter p).length = (l.filter p).length :=
    ((List.mergeSort_perm l le).filter p).length_eq
  exact (hsub3.eq_of_length hlen.symm).symm

theorem countP_gt_lt_of_mem_take_desc {α : Type} (key : α → ℚ) (s : List α) (m : Nat)
    (x : α) (hs : s.Pairwise (fun a b => key b ≤ key a)) (hx : x ∈ s.take m) :
    s.countP (fun y => decide (key x < key y)) < m := by
  have hsplit := List.take_append_drop m s
  have hcross : ∀ y ∈ s.drop m, key y ≤ key x := by
    have hpw := hs
    rw [← hsplit, List.pairwise_append] at hpw
    intro y hy
    exact hpw.2.2 x hx y hy
  have h1 : s.countP (fun y => decide (key x < key y)) =
      (s.take m).countP (fun y => decide (key x < key y)) +
        (s.drop m).countP (fun y => decide (key x < key y)) := by
    conv_lhs => rw [← hsplit]
    exact List.countP_append _ _ _
  have h2 : (s.drop m).countP (fun y => decide (key x < key y)) = 0 := by
    rw [List.countP_eq_zero]
    intro a ha
    simpa using not_lt.mpr (hcross a ha)
  have h3 : (s.take m).countP (fun y => decide (key x < key y)) < (s.take m).length := by
    refine Nat.lt_of_le_of_ne (List.countP_le_length _) (fun heq => ?_)
    have hx2 := (List.countP_eq_length.mp heq) x hx
    simp at hx2
  have h4 : (s.take m).length ≤ m := by
    rw [List.length_take]
    exact inf_le_left
  omega

theorem countP_lt_lt_of_mem_take_asc {α : Type} (key : α → ℚ) (s : List α) (m : Nat)
    (x : α) (hs : s.Pairwise (fun a b => key a ≤ key b)) (hx : x ∈ s.take m) :
    s.countP (fun y => decide (key y < key x)) < m := by
  have hsplit := List.take_append_drop m s
  have hcross : ∀ y ∈ s.drop m, key x ≤ key y := by
    have hpw := hs
    rw [← hsplit, List.pairwise_append] at hpw
    intro y hy
    exact hpw.2.2 x hx y hy
  have h1 : s.countP (fun y => decide (key y < key x)) =
      (s.take m).countP (fun y => decide (key y < key x)) +
        (s.drop m).countP (fun y => decide (key y < key x)) := by
    conv_lhs => rw [← hsplit]
    exact List.countP_append _ _ _
  have h2 : (s.drop m).countP (fun y => decide (key y < key x)) = 0 := by
    rw [List.countP_eq_zero]
    intro a ha
    simpa using not_lt.mpr (hcross a ha)
  have h3 : (s.take m).countP (fun y => decide (key y < key x)) < (s.take m).length := by
    refine Nat.lt_of_le_of_ne (List.countP_le_length _) (fun heq => ?_)
    have hx2 := (List.countP_eq_length.mp heq) x hx
    simp at hx2
  have h4 : (s.take m).length ≤ m := by
    rw [List.length_take]
    exact inf_le_left
  omega

theorem sorted_desc_of_mergeSort {α : Type} (key : α → ℚ) (l : List α) :
    (l.mergeSort (fun a b => decide (key b ≤ key a))).Pairwise
      (fun a b => key b ≤ key a) := by
  have h := @List.sorted_mergeSort _
    (fun a b => decide (key b ≤ key a))
    (fun a b c hab hbc => by
      simp only [decide_eq_true_eq] at hab hbc ⊢
      exact le_trans hbc hab)
    (fun a b => by
      simp only [Bool.or_eq_true, decide_eq_true_eq]
      exact le_total (key b) (key a))
    l
  exact h.imp (fun hab => by simpa using hab)

theorem sorted_asc_of_mergeSort {α : Type} (key : α → ℚ) (l : List α) :
    (l.mergeSort (fun a b => decide (key a ≤ key b))).Pairwise
      (fun a b => key a ≤ key b) := by
  have h := @List.sorted_mergeSort _
    (fun a b => decide (key a ≤ key b))
    (fun a b c hab hbc => by
      simp only [decide_eq_true_eq] at hab hbc ⊢
      exact le_trans hab hbc)
    (fun a b => by
      simp only [Bool.or_eq_true, decide_eq_true_eq]
      exact le_total (key a) (key b))
    l
  exact h.imp (fun hab => by simpa using hab)

theorem take_desc_ge_take_asc {α : Type} (key : α → ℚ) (valid : List α) (m : Nat)
    (hm : 2 * m ≤ valid.length)
    (g : α) (hg : g ∈ (valid.mergeSort (fun a b => decide (key b ≤ key a))).take m)
    (l : α) (hl : l ∈ (valid.mergeSort (fun a b => decide (key a ≤ key b))).take m) :
    key l ≤ key g := by
  by_contra hlt
  push_neg at hlt
  have c1 : valid.countP (fun y => decide (key g < key y)) < m := by
    have h := countP_gt_lt_of_mem_take_desc key
      (valid.mergeSort (fun a b => decide (key b ≤ key a))) m g
      (sorted_desc_of_mergeSort key valid) hg
    rwa [(List.mergeSort_perm valid _).countP_eq] at h
  have c2 : valid.countP (fun y => decide (key y < key l)) < m := by
    have h := countP_lt_lt_of_mem_take_asc key
      (valid.mergeSort (fun a b => decide (key a ≤ key b))) m l
      (sorted_asc_of_mergeSort key valid) hl
    rwa [(List.mergeSort_perm valid _).countP_eq] at h
  have hsplitlen := List.length_eq_countP_add_countP
    (fun y => decide (key g < key y)) valid
  have hmono : valid.countP (fun y => decide ¬(decide (key g < key y) = true)) ≤
      valid.countP (fun y => decide (key y < key l)) := by
    refine List.countP_mono_left (fun x _ hx => ?_)
    simp only [decide_eq_true_eq, not_lt] at hx
    simpa using lt_of_le_of_lt hx hlt
  omega

theorem dictInsert_fresh {κ ν : Type} [BEq κ] (k : κ) (v : ν) (d : List (κ × ν))
    (h : d.any (fun p => p.1 == k) = false) : dictInsert k v d = d ++ [(k, v)] := by
  simp [dictInsert, h]

theorem foldl_dictInsert_eq_map (keyF : Nat → Nat) (quoteF : Nat → HistUSD) :
    ∀ (is : List Nat) (acc : List (Nat × HistUSD)),
      is.Pairwise (fun i j => keyF i ≠ keyF j) →
      (∀ i ∈ is, ∀ p ∈ acc, p.1 ≠ keyF i) →
      is.foldl (fun q i => dictInsert (keyF i) (quoteF i) q) acc =
        acc ++ is.map (fun i => (keyF i, quoteF i)) := by
  intro is
  induction is with
  | nil => intro acc _ _; simp
  | cons hd tl ih =>
    intro acc hpw hacc
    rw [List.foldl_cons]
    have hfresh : acc.any (fun p => p.1 == keyF hd) = false := by
      rw [List.any_eq_false]
      intro p hp
      simpa using hacc hd (List.mem_cons_self hd tl) p hp
    rw [dictInsert_fresh _ _ _ hfresh]
    rw [ih (acc ++ [(keyF hd, quoteF hd)]) hpw.of_cons ?_]
    · simp
    · intro i hi p hp
      rcases List.mem_append.mp hp with hp1 | hp1
      · exact hacc i (List.mem_cons_of_mem hd hi) p hp1
      · have hne := (List.pairwise_cons.mp hpw).1 i hi
        simp only [List.mem_singleton] at hp1
        rw [hp1]
        exact hne

theorem buildQuotes_eq_map (prices volumes market_caps : List (Nat × ℚ))
    (hkeys : ((List.range prices.length).map
      (fun i => (prices.getD i (0, 0)).1 / 1000)).Nodup) :
    buildQuotes prices volumes market_caps =
      (List.range prices.length).map (fun i =>
        ((prices.getD i (0, 0)).1 / 1000,
          { price := (prices.getD i (0, 0)).2
            volume_24h := (volumes[i]?).map (·.2)
            market_cap := (market_caps[i]?).map (·.2) })) := by
  have hpw : (List.range prices.length).Pairwise
      (fun i j => (prices.getD i (0, 0)).1 / 1000 ≠ (prices.getD j (0, 0)).1 / 1000) :=
    List.pairwise_map.mp hkeys
  have h := foldl_dictInsert_eq_map
    (fun i => (prices.getD i (0, 0)).1 / 1000)
    (fun i =>
      { price := (prices.getD i (0, 0)).2
        volume_24h := (volumes[i]?).map (·.2)
        market_cap := (market_caps[i]?).map (·.2) })
    (List.range prices.length) [] hpw (by intro i _ p hp; simp at hp)
  simpa [buildQuotes] using h

theorem fmtMagLoop_pow : ∀ (k m : Nat) (q : ℚ), 4 - m ≤ k →
    ∃ j, fmtMagLoop q m = (q / 1000 ^ j, m + j) := by
  intro k
  induction k with
  | zero =>
    intro m q hm
    rw [fmtMagLoop]
    have hcond : ¬(1000 ≤ |q| ∧ m < 4) := by
      rintro ⟨-, hm4⟩
      omega
    rw [dif_neg hcond]
    exact ⟨0, by simp⟩
  | succ k ih =>
    intro m q hm
    rw [fmtMagLoop]
    by_cases hcond : 1000 ≤ |q| ∧ m < 4
    · rw [dif_pos hcond]
      obtain ⟨j, hj⟩ := ih (m + 1) (q / 1000) (by omega)
      refine ⟨j + 1, ?_⟩
      rw [hj]
      have hval : q / 1000 / 1000 ^ j = q / 1000 ^ (j + 1) := by
        rw [div_div]
        congr 1
        rw [pow_succ]
        ring
      rw [hval]
      have harith : m + 1 + j = m + (j + 1) := by omega
      rw [harith]
    · rw [dif_neg hcond]
      exact ⟨0, by simp⟩

theorem fmtMagLoop_neg : ∀ (k m : Nat) (q : ℚ), 4 - m ≤ k →
    fmtMagLoop (-q) m = (-(fmtMagLoop q m).1, (fmtMagLoop q m).2) := by
  intro k
  induction k with
  | zero =>
    intro m q hm
    have hcond : ¬(1000 ≤ |q| ∧ m < 4) := by
      rintro ⟨-, hm4⟩
      omega
    have hcondn : ¬(1000 ≤ |(-q)| ∧ m < 4) := by
      rw [abs_neg]
      exact hcond
    conv_lhs => rw [fmtMagLoop]
    conv_rhs => rw [fmtMagLoop]
    rw [dif_neg hcond, dif_neg hcondn]
  | succ k ih =>
    intro m q hm
    conv_lhs => rw [fmtMagLoop]
    conv_rhs => rw [fmtMagLoop]
    by_cases hcond : 1000 ≤ |q| ∧ m < 4
    · have hcondn : 1000 ≤ |(-q)| ∧ m < 4 := by rw [abs_neg]; exact hcond
      rw [dif_pos hcond, dif_pos hcondn]
      have hdiv : -q / 1000 = -(q / 1000) := by ring
      rw [hdiv]
      exact ih (m + 1) (q / 1000) (by omega)
    · have hcondn : ¬(1000 ≤ |(-q)| ∧ m < 4) := by rw [abs_neg]; exact hcond
      rw [dif_neg hcond, dif_neg hcondn]

/-- C10: format_large_number returns "N/A" exactly for a None input and
the bare string "0" (no dollar prefix, no magnitude suffix) for a zero
input; every other number is rendered with a leading "$" from the value
scaled down by 1000 per magnitude step, where the scaling loop tests
the absolute value, so negative inputs scale like their absolute
value. -/
theorem C10_format_large_number_special_cases :
    (∀ p, format_large_number none p = "N/A") ∧
    (∀ p, format_large_number (some 0) p = "0") ∧
    (∀ (q : ℚ) (p : Nat), q ≠ 0 → format_large_number (some q) p =
      "$" ++ renderFixed (fmtMagLoop q 0).1 p ++ numberSuffixes.getD (fmtMagLoop q 0).2 "") ∧
    (∀ q : ℚ, fmtMagLoop (-q) 0 = (-(fmtMagLoop q 0).1, (fmtMagLoop q 0).2)) ∧
    (∀ q : ℚ, (fmtMagLoop q 0).1 = q / 1000 ^ (fmtMagLoop q 0).2) := by
  refine ⟨fun p => rfl, fun p => by simp [format_large_number],
    fun q p hq => by simp [format_large_number, hq],
    fun q => fmtMagLoop_neg 4 0 q (by omega), fun q => ?_⟩
  obtain ⟨j, hj⟩ := fmtMagLoop_pow 4 0 q (by omega)
  rw [hj]
  simp

/-- C10 witness: the special cases at concrete inputs, including the
dollar prefix for the nonzero input -1500. -/
theorem C10_format_large_number_witness :
    format_large_number none 2 = "N/A" ∧ format_large_number (some 0) 2 = "0" ∧
    format_large_number (some (-1500)) 2 =
      "$" ++ renderFixed (fmtMagLoop (-1500) 0).1 2 ++
        numberSuffixes.getD (fmtMagLoop (-1500) 0).2 "" :=
  ⟨C10_format_large_number_special_cases.1 2,
   C10_format_large_number_special_cases.2.1 2,
   C10_format_large_number_special_cases.2.2.1 (-1500) 2 (by norm_num)⟩

/-- C6 counterexample: a payload whose data dict is present but empty
makes prepare_historical_data raise IndexError (list(d.keys())[0] on an
empty dict), not return an empty sequence. -/
theorem C6_counterexample_empty_data :
    prepare_historical_data (some ⟨some [], ⟨0, none, 0⟩⟩) = .error .indexError := rfl

/-- C6 (amended): prepare_historical_data returns an empty sequence,
not a failure, when the payload is falsy or lacks the data key; but a
present-and-empty data dict raises IndexError and a present symbol with
an empty quotes dict raises KeyError from sorting the empty frame. -/
theorem C6_prepare_history_empty_cases :
    prepare_historical_data none = .ok [] ∧
    (∀ st : HistStatus, prepare_historical_data (some ⟨none, st⟩) = .ok []) ∧
    (∀ st : HistStatus, prepare_historical_data (some ⟨some [], st⟩) = .error .indexError) ∧
    (∀ (st : HistStatus) (sym : String),
      prepare_historical_data (some ⟨some [(sym, ⟨[]⟩)], st⟩) =
        .error (.keyError "timestamp")) :=
  ⟨rfl, fun _ => rfl, fun _ => rfl, fun _ _ => rfl⟩

/-- C5 counterexample: a payload built from an empty price series makes
prepare_historical_data raise KeyError instead of producing the
length-0 output the claim promises for every payload. -/
theorem C5_counterexample_empty_prices :
    prepare_historical_data (some (buildHistResult "BTC" [] [] [])) =
      .error (.keyError "timestamp") := rfl

theorem capSum_bounds (df : List CryptoRow) (p : CryptoRow → Bool)
    (hnn : ∀ r ∈ df, 0 ≤ r.market_cap.getD 0) :
    0 ≤ seriesSum ((df.filter p).map (·.market_cap)) ∧
      seriesSum ((df.filter p).map (·.market_cap)) ≤ total_market_cap df := by
  have hval : ∀ (l : List CryptoRow), (∀ r ∈ l, r ∈ df) →
      ∀ a ∈ (l.map (·.market_cap)).filterMap id, 0 ≤ a := by
    intro l hl a ha
    rw [List.mem_filterMap] at ha
    obtain ⟨o, ho, hoa⟩ := ha
    rw [List.mem_map] at ho
    obtain ⟨r, hr, hro⟩ := ho
    have h0 := hnn r (hl r hr)
    have hcap : r.market_cap = some a := by rw [hro]; exact hoa
    rw [hcap] at h0
    simpa using h0
  simp only [seriesSum, total_market_cap]
  constructor
  · exact List.sum_nonneg
      (hval (df.filter p) (fun r hr => List.mem_of_mem_filter hr))
  · exact List.Sublist.sum_le_sum
      (((List.filter_sublist df).map (·.market_cap)).filterMap id)
      (hval df (fun r hr => hr))

/-- C2 counterexample: on a listing whose market caps sum to zero,
calculate_market_share returns the numpy result {nan, nan, nan} — a
value, not a DivisionUndefined failure. -/
theorem C2_counterexample_silent_nan :
    calculate_market_share [zeroCapRow] = ⟨.nan, .nan, .nan⟩ := by
  simp +decide [calculate_market_share, total_market_cap, btc_market_cap, eth_market_cap,
    seriesSum, zeroCapRow, blankRow, List.filter_cons]

/-- C2 (amended): for every listings input with nonnegative market caps
summing to zero, calculate_market_share silently returns nan for all
three categories; no exception is raised and no DivisionUndefined
failure exists in the code. -/
theorem C2_zero_total_market_share_nan (df : List CryptoRow)
    (hnn : ∀ r ∈ df, 0 ≤ r.market_cap.getD 0)
    (h0 : total_market_cap df = 0) :
    calculate_market_share df = ⟨.nan, .nan, .nan⟩ := by
  have hb := capSum_bounds df (fun r => decide (r.symbol = some "BTC")) hnn
  have he := capSum_bounds df (fun r => decide (r.symbol = some "ETH")) hnn
  have hbtc : btc_market_cap df = 0 := by
    have h2 := hb.2
    rw [h0] at h2
    exact le_antisymm h2 hb.1
  have heth : eth_market_cap df = 0 := by
    have h2 := he.2
    rw [h0] at h2
    exact le_antisymm h2 he.1
  norm_num [calculate_market_share, hbtc, heth, h0, FVal.div, FVal.mul]

/-- C2 witness: the amended statement at a concrete two-row input with
zero total market cap. -/
theorem C2_zero_total_witness :
    calculate_market_share zeroCapScenario = ⟨.nan, .nan, .nan⟩ :=
  C2_zero_total_market_share_nan zeroCapScenario
    (by
      intro r hr
      simp only [zeroCapScenario, blankRow, List.mem_cons, List.not_mem_nil, or_false] at hr
      rcases hr with rfl | rfl <;> norm_num)
    (by simp [total_market_cap, seriesSum, zeroCapScenario, blankRow])

/-- C3: whenever the total market cap is nonzero, the three category
percentages of calculate_market_share add up to exactly 100. -/
theorem C3_market_share_sums_to_100 (df : List CryptoRow)
    (h : total_market_cap df ≠ 0) :
    (((calculate_market_share df).Bitcoin).add
        ((calculate_market_share df).Ethereum)).add
      ((calculate_market_share df).Altcoins) = .fin 100 := by
  simp only [calculate_market_share, FVal.div, FVal.mul, if_neg h, FVal.add]
  congr 1
  field_simp
  ring

/-- C3 witness: the specification scenario BTC 600 / ETH 300 / XRP 100
yields {Bitcoin: 60, Ethereum: 30, Altcoins: 10}, and the sum is 100 by
the theorem. -/
theorem C3_scenario_witness :
    calculate_market_share shareScenario = ⟨.fin 60, .fin 30, .fin 10⟩ ∧
    (((calculate_market_share shareScenario).Bitcoin).add
        ((calculate_market_share shareScenario).Ethereum)).add
      ((calculate_market_share shareScenario).Altcoins) = .fin 100 :=
  ⟨by
    simp +decide [calculate_market_share, total_market_cap, btc_market_cap, eth_market_cap,
      seriesSum, shareScenario, blankRow, List.filter_cons]
    norm_num [FVal.div, FVal.mul],
   C3_market_share_sums_to_100 shareScenario
    (by
      simp [total_market_cap, seriesSum, shareScenario, blankRow]
      norm_num)⟩

/-- C1 counterexample: the empty listings payload makes
prepare_listings_data raise KeyError (pd.DataFrame([]) has no columns,
so df['last_updated'] fails) instead of producing a sorted output. -/
theorem C1_counterexample_empty_payload :
    prepare_listings_data ⟨[]⟩ = .error (.keyError "last_updated") := rfl

/-- C1 (amended): for every non-empty listings payload,
prepare_listings_data succeeds; its output is a permutation of the
extracted rows in which market caps are descending and every null-cap
row follows every non-null-cap row.  The claim's tie-stability clause
is dropped: sort_values runs with the pandas default kind='quicksort',
which gives no guarantee on the relative order of rows with equal
market caps, so the program does not promise it.  The empty payload
instead raises KeyError on the column access of an empty frame. -/
theorem C1_prepare_listings_sorted (payload : ListingsPayload)
    (hne : payload.data ≠ []) :
    ∃ out, prepare_listings_data payload = .ok out ∧
      out.Perm (payload.data.map extractRow) ∧
      out.Pairwise capOrder := by
  set rows := payload.data.map extractRow with hrows
  have hnonempty : rows.isEmpty = false := by
    rw [List.isEmpty_eq_false]
    intro h
    exact hne (List.map_eq_nil_iff.mp h)
  have hnulls : rows.filter (fun r => r.market_cap.isNone) =
      rows.filter (fun x => !(fun r : CryptoRow => r.market_cap.isSome) x) := by
    refine List.filter_congr (fun x _ => ?_)
    cases h : x.market_cap <;> simp [h]
  refine ⟨sortValuesByCapDesc rows, ?_, ?_, ?_⟩
  · simp only [prepare_listings_data, ← hrows, hnonempty, Bool.false_eq_true, if_false]
  · unfold sortValuesByCapDesc
    refine List.Perm.trans
      ((List.mergeSort_perm _ _).append_right _) ?_
    rw [hnulls]
    exact List.filter_append_perm _ rows
  · unfold sortValuesByCapDesc
    rw [List.pairwise_append]
    refine ⟨?_, ?_, ?_⟩
    · have hsorted := sorted_desc_of_mergeSort
        (fun r : CryptoRow => r.market_cap.getD 0)
        (rows.filter (fun r => r.market_cap.isSome))
      refine hsorted.imp_of_mem ?_
      intro a b ha hb hrel
      have ha2 := (List.mem_filter.mp (List.mem_mergeSort.mp ha)).2
      have hb2 := (List.mem_filter.mp (List.mem_mergeSort.mp hb)).2
      obtain ⟨xa, hxa⟩ := Option.isSome_iff_exists.mp ha2
      obtain ⟨xb, hxb⟩ := Option.isSome_iff_exists.mp hb2
      rw [hxa, hxb] at hrel
      simp only [Option.getD_some] at hrel
      simp [capOrder, hxa, hxb, hrel]
    · refine List.pairwise_of_forall_mem_list (fun a _ b hb => ?_)
      have hb2 := (List.mem_filter.mp hb).2
      rw [Option.isNone_iff_eq_none] at hb2
      simp [capOrder, hb2]
    · intro a _ b hb
      have hb2 := (List.mem_filter.mp hb).2
      rw [Option.isNone_iff_eq_none] at hb2
      simp [capOrder, hb2]

/-- C1 witness: the amended theorem at a concrete one-coin payload. -/
theorem C1_prepare_listings_witness :
    ∃ out, prepare_listings_data samplePayload = .ok out ∧
      out.Perm (samplePayload.data.map extractRow) ∧
      out.Pairwise capOrder :=
  C1_prepare_listings_sorted samplePayload (by simp [samplePayload])

theorem prepare_historical_data_cons (sym : String) (sq : SymbolQuotes)
    (rest : List (String × SymbolQuotes)) (st : HistStatus) :
    prepare_historical_data (some ⟨some ((sym, sq) :: rest), st⟩) =
      (if (sq.quotes.map
            (fun p => HistSample.mk p.1 p.2.price p.2.volume_24h p.2.market_cap)).isEmpty
        then .error (.keyError "timestamp")
        else .ok ((sq.quotes.map
            (fun p => HistSample.mk p.1 p.2.price p.2.volume_24h p.2.market_cap)).mergeSort
          (fun a b => decide (a.timestamp ≤ b.timestamp)))) := rfl

/-- C5 (amended): for every history payload built by the fetch
transform from a non-empty price series whose per-second keys are
distinct (the provider's daily interval guarantees this),
prepare_historical_data succeeds with exactly one sample per price
entry: the output is a permutation of the index-by-index zip of the
three series — volume and market cap null where those series are
shorter — and its timestamps are non-decreasing; an empty price series
instead raises KeyError sorting the empty frame, and colliding
per-second keys would collapse dict entries. -/
theorem C5_prepare_history_zip_sorted (symbol : String)
    (prices volumes market_caps : List (Nat × ℚ))
    (hne : prices ≠ [])
    (hkeys : ((List.range prices.length).map
      (fun i => (prices.getD i (0, 0)).1 / 1000)).Nodup) :
    ∃ out,
      prepare_historical_data (some (buildHistResult symbol prices volumes market_caps)) =
        .ok out ∧
      out.length = prices.length ∧
      out.Perm (zipSamples prices volumes market_caps) ∧
      out.Pairwise (fun a b => a.timestamp ≤ b.timestamp) := by
  have hrows : (buildQuotes prices volumes market_caps).map
      (fun p => HistSample.mk p.1 p.2.price p.2.volume_24h p.2.market_cap) =
      zipSamples prices volumes market_caps := by
    rw [buildQuotes_eq_map prices volumes market_caps hkeys, List.map_map]
    rfl
  have hzlen : (zipSamples prices volumes market_caps).length = prices.length := by
    simp [zipSamples]
  have hznil : (zipSamples prices volumes market_caps).isEmpty = false := by
    rw [List.isEmpty_eq_false]
    intro h
    have hlen := congrArg List.length h
    rw [hzlen] at hlen
    exact hne (List.length_eq_zero.mp hlen)
  rw [buildHistResult, prepare_historical_data_cons, hrows, hznil]
  simp only [Bool.false_eq_true, if_false]
  refine ⟨_, rfl, ?_, ?_, ?_⟩
  · rw [(List.mergeSort_perm _ _).length_eq, hzlen]
  · exact List.mergeSort_perm _ _
  · have h := @List.sorted_mergeSort _
      (fun a b : HistSample => decide (a.timestamp ≤ b.timestamp))
      (fun a b c hab hbc => by
        simp only [decide_eq_true_eq] at hab hbc ⊢
        exact le_trans hab hbc)
      (fun a b => by
        simp only [Bool.or_eq_true, decide_eq_true_eq]
        exact le_total _ _)
      (zipSamples prices volumes market_caps)
    exact h.imp (fun hab => by simpa using hab)

/-- C5 witness: the amended theorem at a concrete two-sample series
with a shorter volume series and an empty market-cap series. -/
theorem C5_prepare_history_witness :
    ∃ out,
      prepare_historical_data (some (buildHistResult "BTC"
        [(1000, 5), (2000, 6)] [(1000, 7)] [])) = .ok out ∧
      out.length = ([(1000, 5), (2000, 6)] : List (Nat × ℚ)).length ∧
      out.Perm (zipSamples [(1000, 5), (2000, 6)] [(1000, 7)] []) ∧
      out.Pairwise (fun a b => a.timestamp ≤ b.timestamp) :=
  C5_prepare_history_zip_sorted "BTC" [(1000, 5), (2000, 6)] [(1000, 7)] []
    (by simp) (by decide)

theorem filter_map_projMover (tf : Timeframe) (v : ℚ) (L : List CryptoRow) :
    (L.map (projMover tf)).filter (fun r => decide (r.change = some v)) =
      (L.filter (fun r => decide (colVal tf r = some v))).map (projMover tf) := by
  rw [List.filter_map]
  congr 1

/-- C4: get_top_gainers_losers keeps only rows with a non-null value in
the selected column, reduces n to floor(valid/2) when fewer than 2n
valid rows remain, returns gainers and losers of equal length at most
n, every gainer's value at least every loser's value, and ties are
broken stably: per value, the selected rows are an initial segment of
the valid rows in input order. -/
theorem C4_top_movers (df : List CryptoRow) (n : Nat) (tf : Timeframe) :
    (get_top_gainers_losers df n tf).1.length = (get_top_gainers_losers df n tf).2.length ∧
    (get_top_gainers_losers df n tf).1.length ≤ n ∧
    (get_top_gainers_losers df n tf).1.length =
      (if (df.filter (fun r => (colVal tf r).isSome)).length < 2 * n
        then (df.filter (fun r => (colVal tf r).isSome)).length / 2 else n) ∧
    (∀ a ∈ (get_top_gainers_losers df n tf).1, a.change.isSome) ∧
    (∀ b ∈ (get_top_gainers_losers df n tf).2, b.change.isSome) ∧
    (∀ a ∈ (get_top_gainers_losers df n tf).1, ∀ b ∈ (get_top_gainers_losers df n tf).2,
      b.change.getD 0 ≤ a.change.getD 0) ∧
    (∀ v : ℚ, ∃ t1, (get_top_gainers_losers df n tf).1.filter
        (fun r => decide (r.change = some v)) ++ t1 =
      ((df.filter (fun r => (colVal tf r).isSome)).map (projMover tf)).filter
        (fun r => decide (r.change = some v))) ∧
    (∀ v : ℚ, ∃ t2, (get_top_gainers_losers df n tf).2.filter
        (fun r => decide (r.change = some v)) ++ t2 =
      ((df.filter (fun r => (colVal tf r).isSome)).map (projMover tf)).filter
        (fun r => decide (r.change = some v))) := by
  simp only [get_top_gainers_losers]
  set valid := df.filter (fun r => (colVal tf r).isSome) with hvalid
  set m := if valid.length < 2 * n then valid.length / 2 else n with hm
  set dsort := valid.mergeSort
    (fun a b => decide ((colVal tf b).getD 0 ≤ (colVal tf a).getD 0)) with hdsort
  set asort := valid.mergeSort
    (fun a b => decide ((colVal tf a).getD 0 ≤ (colVal tf b).getD 0)) with hasort
  have h2m : 2 * m ≤ valid.length := by
    rw [hm]
    split <;> omega
  have hmn : m ≤ n := by
    rw [hm]
    split <;> omega
  have hdlen : dsort.length = valid.length := (List.mergeSort_perm _ _).length_eq
  have halen : asort.length = valid.length := (List.mergeSort_perm _ _).length_eq
  have htaked : (dsort.take m).length = m := by
    rw [List.length_take, hdlen]
    exact inf_eq_left.mpr (by omega)
  have htakea : (asort.take m).length = m := by
    rw [List.length_take, halen]
    exact inf_eq_left.mpr (by omega)
  have hmemd : ∀ r ∈ dsort.take m, r ∈ valid := fun r hr =>
    List.mem_mergeSort.mp (List.mem_of_mem_take hr)
  have hmema : ∀ r ∈ asort.take m, r ∈ valid := fun r hr =>
    List.mem_mergeSort.mp (List.mem_of_mem_take hr)
  refine ⟨?_, ?_, ?_, ?_, ?_, ?_, ?_, ?_⟩
  · rw [List.length_map, List.length_map, htaked, htakea]
  · rw [List.length_map, htaked]
    exact hmn
  · rw [List.length_map, htaked, hm]
  · intro a ha
    rw [List.mem_map] at ha
    obtain ⟨r, hr, rfl⟩ := ha
    have := (List.mem_filter.mp (hmemd r hr)).2
    simpa [projMover] using this
  · intro b hb
    rw [List.mem_map] at hb
    obtain ⟨r, hr, rfl⟩ := hb
    have := (List.mem_filter.mp (hmema r hr)).2
    simpa [projMover] using this
  · intro a ha b hb
    rw [List.mem_map] at ha hb
    obtain ⟨ra, hra, rfl⟩ := ha
    obtain ⟨rb, hrb, rfl⟩ := hb
    have := take_desc_ge_take_asc (fun r => (colVal tf r).getD 0) valid m h2m
      ra hra rb hrb
    simpa [projMover] using this
  · intro v
    refine ⟨((dsort.drop m).filter
      (fun r => decide (colVal tf r = some v))).map (projMover tf), ?_⟩
    rw [filter_map_projMover, filter_map_projMover, ← List.map_append,
      ← List.filter_append, List.take_append_drop]
    congr 1
    rw [hdsort]
    refine filter_mergeSort_eq_filter _ _ _ ?_ ?_ ?_
    · intro a b c hab hbc
      simp only [decide_eq_true_eq] at hab hbc ⊢
      exact le_trans hbc hab
    · intro a b
      simp only [Bool.or_eq_true, decide_eq_true_eq]
      exact le_total _ _
    · intro a b hpa hpb
      simp only [decide_eq_true_eq] at hpa hpb ⊢
      rw [hpa, hpb]
  · intro v
    refine ⟨((asort.drop m).filter
      (fun r => decide (colVal tf r = some v))).map (projMover tf), ?_⟩
    rw [filter_map_projMover, filter_map_projMover, ← List.map_append,
      ← List.filter_append, List.take_append_drop]
    congr 1
    rw [hasort]
    refine filter_mergeSort_eq_filter _ _ _ ?_ ?_ ?_
    · intro a b c hab hbc
      simp only [decide_eq_true_eq] at hab hbc ⊢
      exact le_trans hab hbc
    · intro a b
      simp only [Bool.or_eq_true, decide_eq_true_eq]
      exact le_total _ _
    · intro a b hpa hpb
      simp only [decide_eq_true_eq] at hpa hpb ⊢
      rw [hpa, hpb]

/-- C4 witness: the movers properties applied at a concrete frame with
three valid rows and one null row, with n = 1. -/
theorem C4_top_movers_witness :
    (get_top_gainers_losers moversScenario 1 .pc24h).1.length =
      (get_top_gainers_losers moversScenario 1 .pc24h).2.length ∧
    (get_top_gainers_losers moversScenario 1 .pc24h).1.length ≤ 1 :=
  ⟨(C4_top_movers moversScenario 1 .pc24h).1, (C4_top_movers moversScenario 1 .pc24h).2.1⟩

theorem fetchHistResolve_not_cached (s : ApiState) (now : ℚ) (symbol : String)
    (days : Int) (ck : String) (wm : List String) (clResp : CoinListResponse)
    (hResp : HistResponse) :
    (fetchHistResolve s now symbol days ck wm clResp hResp).servedFromCache = false := by
  simp only [fetchHistResolve]
  split
  · rfl
  · split
    · rfl
    · split <;> rfl

/-- C8 counterexample: from a fresh state, a failed coin-list fetch
stores the empty map; a second call with a successful response
available still returns the empty map and makes no network request, so
the failed fetch has permanently fixed the index. -/
theorem C8_counterexample_failed_fetch_memoized :
    (get_coin_symbol_to_id_map startApiState (.failure 500)).state.coin_symbol_to_id_map
      = some [] ∧
    (get_coin_symbol_to_id_map
      (get_coin_symbol_to_id_map startApiState (.failure 500)).state
      (.success [("btc", "bitcoin")])).map = [] ∧
    (get_coin_symbol_to_id_map
      (get_coin_symbol_to_id_map startApiState (.failure 500)).state
      (.success [("btc", "bitcoin")])).networkCalled = false := ⟨rfl, rfl, rfl⟩

/-- C8 (amended): the symbol index is built at most once per process,
but it is memoized after the first fetch ATTEMPT whether or not it
succeeds: a failed or erroring fetch permanently fixes the index to the
empty map; once the global is set (either way) it is never invalidated
— later calls return the stored map with no network request, and the
fetch operations never clear it. -/
theorem C8_symbol_index_memoized :
    (∀ (s : ApiState) (resp : CoinListResponse) (m : List (String × String)),
      s.coin_symbol_to_id_map = some m →
      get_coin_symbol_to_id_map s resp = ⟨m, s, false, []⟩) ∧
    (∀ (s : ApiState) (resp : CoinListResponse), s.coin_symbol_to_id_map = none →
      (get_coin_symbol_to_id_map s resp).state.coin_symbol_to_id_map =
        some (get_coin_symbol_to_id_map s resp).map ∧
      (get_coin_symbol_to_id_map s resp).networkCalled = true) ∧
    (∀ (s : ApiState) (code : Int), s.coin_symbol_to_id_map = none →
      (get_coin_symbol_to_id_map s (.failure code)).map = []) ∧
    (∀ (s : ApiState) (now : ℚ) (sym : String) (days : Int)
        (clResp : CoinListResponse) (hResp : HistResponse) (m : List (String × String)),
      s.coin_symbol_to_id_map = some m →
      (fetch_historical_data s now sym days clResp hResp).state.coin_symbol_to_id_map =
        some m) ∧
    (∀ (s : ApiState) (now : ℚ) (vc : String) (pp pg : Int) (resp : ListingsResponse),
      (fetch_latest_listings s now vc pp pg resp).state.coin_symbol_to_id_map =
        s.coin_symbol_to_id_map) := by
  have hmemo : ∀ (s : ApiState) (resp : CoinListResponse) (m : List (String × String)),
      s.coin_symbol_to_id_map = some m →
      get_coin_symbol_to_id_map s resp = ⟨m, s, false, []⟩ := by
    intro s resp m h
    simp [get_coin_symbol_to_id_map, h]
  refine ⟨hmemo, ?_, ?_, ?_, ?_⟩
  · intro s resp h
    cases resp <;> simp [get_coin_symbol_to_id_map, h]
  · intro s code h
    simp [get_coin_symbol_to_id_map, h]
  · intro s now sym days clResp hResp m hm
    have hres : ∀ (ck : String) (wm : List String),
        (fetchHistResolve s now (pyUpper sym) (clampDays days) ck wm
          clResp hResp).state.coin_symbol_to_id_map = some m := by
      intro ck wm
      simp only [fetchHistResolve, hmemo s clResp m hm]
      split
      · exact hm
      · split
        · exact hm
        · split <;> simp [hm]
    simp only [fetch_historical_data]
    split
    · split
      · exact hm
      · exact hres _ _
    · exact hres _ _
  · intro s now vc pp pg resp
    have hnet : ∀ r, (fetchListingsNetwork s now vc pp pg r).state.coin_symbol_to_id_map =
        s.coin_symbol_to_id_map := by
      intro r
      cases r <;> simp [fetchListingsNetwork]
    simp only [fetch_latest_listings]
    split
    · split
      · rfl
      · exact hnet _
    · exact hnet _

/-- C8 witness: a built index of one entry is returned unchanged with
no network request, applying the memoization theorem. -/
theorem C8_memoized_witness :
    get_coin_symbol_to_id_map builtIndexState (.failure 7) =
      ⟨[("BTC", "bitcoin")], builtIndexState, false, []⟩ :=
  C8_symbol_index_memoized.1 builtIndexState (.failure 7) [("BTC", "bitcoin")] rfl

/-- C9: for a symbol with no entry in the built symbol index and no
cached payload under its key, fetch_historical_data returns the None
failure carrying the 'Coin ID not found' message and issues no
market_chart request. -/
theorem C9_unmapped_symbol (s : ApiState) (now : ℚ) (symbol : String) (days : Int)
    (clResp : CoinListResponse) (hResp : HistResponse) (m : List (String × String))
    (hm : s.coin_symbol_to_id_map = some m)
    (hlook : m.lookup (pyUpper symbol) = none)
    (hcache : s.historical_cache.lookup
      (histCacheKey (pyUpper symbol) (clampDays days)) = none) :
    (fetch_historical_data s now symbol days clResp hResp).result = none ∧
    (fetch_historical_data s now symbol days clResp hResp).histNetworkCalled = false ∧
    (fetch_historical_data s now symbol days clResp hResp).servedFromCache = false ∧
    ("Coin ID not found for symbol: " ++ pyUpper symbol) ∈
      (fetch_historical_data s now symbol days clResp hResp).messages := by
  have h1 : get_coin_symbol_to_id_map s clResp = ⟨m, s, false, []⟩ := by
    simp [get_coin_symbol_to_id_map, hm]
  simp only [fetch_historical_data, hcache]
  simp only [fetchHistResolve, h1, hlook]
  simp

/-- C9 witness: symbol ZZZ against an index mapping only BTC. -/
theorem C9_unmapped_witness :
    (fetch_historical_data builtIndexState 0 "ZZZ" 30 (.failure 0)
      (.failure 0 "")).result = none ∧
    (fetch_historical_data builtIndexState 0 "ZZZ" 30 (.failure 0)
      (.failure 0 "")).histNetworkCalled = false ∧
    (fetch_historical_data builtIndexState 0 "ZZZ" 30 (.failure 0)
      (.failure 0 "")).servedFromCache = false ∧
    ("Coin ID not found for symbol: " ++ pyUpper "ZZZ") ∈
      (fetch_historical_data builtIndexState 0 "ZZZ" 30 (.failure 0)
        (.failure 0 "")).messages :=
  C9_unmapped_symbol builtIndexState 0 "ZZZ" 30 (.failure 0) (.failure 0 "")
    [("BTC", "bitcoin")] rfl (by decide) rfl

/-- C7 counterexample: a fetch_latest_listings call with parameters
(eur, 50, 2) thirty seconds after a call with (usd, 100, 1) is served
the FIRST call's cached payload with no network request — the listings
cache is one shared slot, not keyed by the request parameters. -/
theorem C7_counterexample_listings_cache_ignores_params :
    (fetch_latest_listings
        (fetch_latest_listings startApiState 0 "usd" 100 1 (.success [rawCoinA])).state
        30 "eur" 50 2 (.success [rawCoinB])).result =
      some ⟨[normalizeCoin rawCoinA]⟩ ∧
    (fetch_latest_listings
        (fetch_latest_listings startApiState 0 "usd" 100 1 (.success [rawCoinA])).state
        30 "eur" 50 2 (.success [rawCoinB])).networkCalled = false := by
  have hlt : (30 : ℚ) - 0 < CACHE_EXPIRATION_SECONDS := by
    norm_num [CACHE_EXPIRATION_SECONDS]
  have h1 : (fetch_latest_listings startApiState 0 "usd" 100 1
      (.success [rawCoinA])).state =
      ⟨none, some ⟨[normalizeCoin rawCoinA]⟩, some 0, []⟩ := by
    simp [fetch_latest_listings, fetchListingsNetwork, startApiState]
  rw [h1]
  have h2 : fetch_latest_listings ⟨none, some ⟨[normalizeCoin rawCoinA]⟩, some 0, []⟩
      30 "eur" 50 2 (.success [rawCoinB]) =
      ⟨some ⟨[normalizeCoin rawCoinA]⟩,
        ⟨none, some ⟨[normalizeCoin rawCoinA]⟩, some 0, []⟩, false, none, []⟩ := by
    simp only [fetch_latest_listings, if_pos hlt]
  rw [h2]
  exact ⟨rfl, rfl⟩

/-- C7 (amended): within the expiration window, fetch_latest_listings
returns the single cached payload with no network request regardless of
its (vs_currency, per_page, page) arguments — the listings cache slot
is shared across parameters; the history cache, in contrast, is
consulted only under the caller's own (uppercased symbol, clamped days)
key, so a call whose own key is absent is never served another key's
entry. -/
theorem C7_cache_keying :
    (∀ (s : ApiState) (now : ℚ) (vc : String) (pp pg : Int) (resp : ListingsResponse)
        (d : ListingsPayload) (t : ℚ),
      s.listings_cache_data = some d → s.listings_cache_timestamp = some t →
      now - t < CACHE_EXPIRATION_SECONDS →
      fetch_latest_listings s now vc pp pg resp = ⟨some d, s, false, none, []⟩) ∧
    (∀ (s : ApiState) (now : ℚ) (sym : String) (days : Int)
        (clResp : CoinListResponse) (hResp : HistResponse),
      s.historical_cache.lookup (histCacheKey (pyUpper sym) (clampDays days)) = none →
      (fetch_historical_data s now sym days clResp hResp).servedFromCache = false) := by
  constructor
  · intro s now vc pp pg resp d t hd ht hlt
    simp only [fetch_latest_listings, hd, ht, if_pos hlt]
  · intro s now sym days clResp hResp hcache
    simp only [fetch_historical_data, hcache]
    exact fetchHistResolve_not_cached _ _ _ _ _ _ _ _

/-- C7 witness: the cached-slot behaviour at a concrete state and the
cache-miss behaviour at the start state. -/
theorem C7_cache_keying_witness :
    fetch_latest_listings ⟨none, some ⟨[]⟩, some 0, []⟩ 30 "eur" 50 2 (.failure 0 "x") =
      ⟨some ⟨[]⟩, ⟨none, some ⟨[]⟩, some 0, []⟩, false, none, []⟩ ∧
    (fetch_historical_data startApiState 0 "ZZZ" 30 (.failure 0)
      (.failure 0 "")).servedFromCache = false :=
  ⟨C7_cache_keying.1 ⟨none, some ⟨[]⟩, some 0, []⟩ 30 "eur" 50 2 (.failure 0 "x") ⟨[]⟩ 0
      rfl rfl (by norm_num [CACHE_EXPIRATION_SECONDS]),
   C7_cache_keying.2 startApiState 0 "ZZZ" 30 (.failure 0) (.failure 0 "") rfl⟩
